import Mathlib

/-!
Verification of the Kairo canvas state engine.

This file gives a shallow embedding of the core canvas logic of the Kairo
repository — the axis-aligned box intersection test (`src/utils/collision.ts`),
the push-propagation drag resolver (`handleMouseMove` in
`src/hooks/useInteraction.ts`), the undo/redo history (`useHistory.ts`), and
the canvas facade operations (`useCanvas.ts`) — and proves or refutes the
frozen specification claims about them.

Grid coordinates and box dimensions are JavaScript numbers that the code only
ever produces as integers (`Math.floor` / `Math.round` of pixel positions,
integer deltas), so they are modelled as `Int`.
-/

set_option autoImplicit false

namespace Kairo

/-- A bare rectangle, the `BoxLike` shape of `src/utils/collision.ts`. -/
structure Rect where
  x : Int
  y : Int
  width : Int
  height : Int
  deriving DecidableEq, Repr

/-- A canvas box, from `src/types/index.ts` (`interface Box`). -/
structure Box where
  id : String
  x : Int
  y : Int
  width : Int
  height : Int
  text : String
  selected : Bool
  deriving DecidableEq, Repr

/-- The rectangle of a box (the fields `doBoxesIntersect` reads). -/
def Box.rect (b : Box) : Rect :=
  { x := b.x, y := b.y, width := b.width, height := b.height }

/-- AABB collision test from `src/utils/collision.ts`: returns `false` when
one box is (weakly) to the left of the other or (weakly) above the other. -/
def doBoxesIntersect (boxA boxB : Rect) : Bool :=
  if boxA.x + boxA.width ≤ boxB.x ∨ boxB.x + boxB.width ≤ boxA.x then
    false
  else if boxA.y + boxA.height ≤ boxB.y ∨ boxB.y + boxB.height ≤ boxA.y then
    false
  else
    true

/-- The second, local `doBoxesIntersect` declared at the bottom of the
marquee-selection version of `useInteraction.ts` (src/unnamed/part_006,
lines 418-438).  It tests `<` where the collision-utility version tests
`<=`, so rectangles that merely touch fall through to `true`. -/
def doBoxesIntersectLocal (boxA boxB : Rect) : Bool :=
  if boxA.x + boxA.width < boxB.x ∨
      boxB.x + boxB.width < boxA.x ∨
      boxA.y + boxA.height < boxB.y ∨
      boxB.y + boxB.height < boxA.y then
    false
  else
    true

/-- `isBoxCollidingWithAny` from `src/utils/collision.ts`: a box collides
when it intersects any other box with a different id. -/
def isBoxCollidingWithAny (targetBox : Box) (allBoxes : List Box) : Bool :=
  allBoxes.any fun otherBox =>
    if targetBox.id == otherBox.id then false
    else doBoxesIntersect targetBox.rect otherBox.rect

/-- `isPreviewCollidingWithAny` from `src/utils/collision.ts`: a preview
rectangle collides when it intersects any existing box. -/
def isPreviewCollidingWithAny (targetBox : Rect) (allBoxes : List Box) : Bool :=
  allBoxes.any fun otherBox => doBoxesIntersect targetBox otherBox.rect

/-- Translation of a box by a displacement, as performed on every
transitively pushed box (`{ ...other, x: other.x + deltaX, y: other.y + deltaY }`). -/
def translateBox (b : Box) (deltaX deltaY : Int) : Box :=
  { b with x := b.x + deltaX, y := b.y + deltaY }

/-- Directionality tag of a connection (`ConnectionType` in `src/types`;
the enum declaration itself is in the newer types module, its three states
are named in the spec: None, Forward, Bidirectional). -/
inductive ConnectionType where
  | none
  | forward
  | bidirectional
  deriving DecidableEq, Repr

/-- A directed connection between two boxes, from `src/types/index.ts`
(fields `from` and `to` in the source; those are reserved words here). -/
structure Connection where
  fromId : String
  toId : String
  ctype : ConnectionType
  deriving DecidableEq, Repr

/-- The aggregate canvas state, from `src/types/index.ts`. -/
structure CanvasState where
  boxes : List Box
  connections : List Connection
  deriving DecidableEq, Repr

/-! ## The push-propagation resolver

`handleMouseMove` in `src/hooks/useInteraction.ts` (lines 150-199) resolves a
drag of box `draggingBox.boxId` towards grid position `(newGridX, newGridY)`
inside a `setBoxes` updater.  The updater builds a `toUpdate` map (planned
boxes, insertion-ordered) and a FIFO `queue` of planned ids, breadth-first
propagates the displacement, and either returns `prevBoxes` unchanged
(rejection / trivial cases) or the fully re-planned list.

The embedding splits the updater into the same phases the source has: the
inner `for (const other of prevBoxes)` loop (`pushOthers`), the
`while (head < queue.length)` loop (`bfsLoop`, with a fuel parameter in
place of the implicit termination argument), the final residual-collision
check (`residualCollision`), and the orchestration
(`resolveMoveOutcome` / `resolveMove`).  `resolveMoveOutcome` tags which
`return` statement of the source updater produced the result;
`resolveMove` projects the tagged outcome back to the returned box list. -/

/-- Result of the breadth-first propagation loop. -/
inductive BfsResult where
  | ok (toUpdate : List Box)
  | abort
  | outOfFuel
  deriving DecidableEq, Repr

/-- One pass of the inner `for (const other of prevBoxes)` loop: every box
not yet planned that intersects the popped planned box `movingBox` is
translated by the drag delta and enqueued; a translated position with a
negative coordinate aborts the whole resolution (`return prevBoxes`). -/
def pushOthers (deltaX deltaY : Int) (movingBox : Box) :
    List Box → List Box → List String → Option (List Box × List String)
  | [], toUpdate, queue => some (toUpdate, queue)
  | other :: rest, toUpdate, queue =>
    if toUpdate.any fun u => u.id == other.id then
      pushOthers deltaX deltaY movingBox rest toUpdate queue
    else if doBoxesIntersect movingBox.rect other.rect then
      let newOtherX := other.x + deltaX
      let newOtherY := other.y + deltaY
      if newOtherX < 0 ∨ newOtherY < 0 then
        none
      else
        pushOthers deltaX deltaY movingBox rest
          (toUpdate ++ [{ other with x := newOtherX, y := newOtherY }])
          (queue ++ [other.id])
    else
      pushOthers deltaX deltaY movingBox rest toUpdate queue

/-- The `while (head < queue.length)` loop.  `pending` is the unprocessed
tail of the queue; the fuel argument stands in for the termination measure
(the loop enqueues each box at most once, so a bound above the number of
boxes is never exhausted; see the termination lemmas below). -/
def bfsLoop (deltaX deltaY : Int) (prevBoxes : List Box) :
    Nat → List Box → List String → BfsResult
  | _, toUpdate, [] => .ok toUpdate
  | 0, _, _ :: _ => .outOfFuel
  | fuel + 1, toUpdate, currentId :: rest =>
    match toUpdate.find? fun u => u.id == currentId with
    | Option.none => .ok toUpdate
    | some movingBox =>
      match pushOthers deltaX deltaY movingBox prevBoxes toUpdate rest with
      | Option.none => .abort
      | some (toUpdate2, pending2) =>
        bfsLoop deltaX deltaY prevBoxes fuel toUpdate2 pending2

/-- The final global consistency check: some planned box still intersects a
box outside the planned set (`finalBoxes.some` inside
`for (const updated of toUpdate.values())`). -/
def residualCollision (toUpdate finalBoxes : List Box) : Bool :=
  toUpdate.any fun updated =>
    finalBoxes.any fun other =>
      if updated.id == other.id ∨ (toUpdate.any fun u => u.id == other.id) then
        false
      else
        doBoxesIntersect updated.rect other.rect

/-- Which `return` of the `setBoxes` updater produced the result. -/
inductive MoveOutcome where
  /-- `if (!currentBox) return prevBoxes` — the dragged id is gone. -/
  | notFound
  /-- `if (deltaX === 0 && deltaY === 0) return prevBoxes`. -/
  | zeroDelta
  /-- `if (newOtherX < 0 || newOtherY < 0) return prevBoxes` — a pushed box
  would cross the origin boundary. -/
  | boundaryAbort
  /-- `if (hasCollision) return prevBoxes` — the residual check fired. -/
  | residualAbort
  /-- The fuel of the embedded loop ran out (proved unreachable). -/
  | outOfFuel
  /-- `return finalBoxes` — the move succeeded. -/
  | moved (finalBoxes : List Box)
  deriving DecidableEq, Repr

/-- The drag resolver of `handleMouseMove` (`useInteraction.ts` 150-199),
with each `return` site tagged.  Note the source clamps the proposed
position (`Math.max(0, newGridX)`) before computing the delta. -/
def resolveMoveOutcome (prevBoxes : List Box) (dragBoxId : String)
    (newGridX newGridY : Int) : MoveOutcome :=
  match prevBoxes.find? fun b => b.id == dragBoxId with
  | Option.none => .notFound
  | some currentBox =>
    let proposedX := max 0 newGridX
    let proposedY := max 0 newGridY
    let deltaX := proposedX - currentBox.x
    let deltaY := proposedY - currentBox.y
    if deltaX = 0 ∧ deltaY = 0 then .zeroDelta
    else
      match bfsLoop deltaX deltaY prevBoxes (prevBoxes.length + 2)
          [{ currentBox with x := proposedX, y := proposedY }] [dragBoxId] with
      | .outOfFuel => .outOfFuel
      | .abort => .boundaryAbort
      | .ok toUpdate =>
        let finalBoxes :=
          prevBoxes.map fun b => ((toUpdate.find? fun u => u.id == b.id).getD b)
        if residualCollision toUpdate finalBoxes then .residualAbort
        else .moved finalBoxes

/-- The box list returned by the `setBoxes` updater: the re-planned list on
success, `prevBoxes` itself on every other path. -/
def resolveMove (prevBoxes : List Box) (dragBoxId : String)
    (newGridX newGridY : Int) : List Box :=
  match resolveMoveOutcome prevBoxes dragBoxId newGridX newGridY with
  | .moved finalBoxes => finalBoxes
  | _ => prevBoxes

/-! ## The command log

`useHistory.ts` (src/unnamed/part_002, lines 98-151): a two-stack undo/redo
over an arbitrary state type.  JavaScript pushes commands at the end of the
stack arrays and pops from the end. -/

/-- A reversible state transformation (`interface Command<T>`). -/
structure Command (T : Type) where
  execute : T → T
  undo : T → T

/-- The history hook state: current value plus the two command stacks. -/
structure History (T : Type) where
  state : T
  undoStack : List (Command T)
  redoStack : List (Command T)

/-- `execute(command)`: apply, push onto the undo stack, clear the redo
stack. -/
def History.execute {T : Type} (h : History T) (command : Command T) :
    History T :=
  { state := command.execute h.state,
    undoStack := h.undoStack ++ [command],
    redoStack := [] }

/-- `undo()`: no-op on an empty undo stack, else apply the last command's
inverse and shift the command to the redo stack. -/
def History.undo {T : Type} (h : History T) : History T :=
  match h.undoStack.getLast? with
  | Option.none => h
  | some lastCommand =>
    { state := lastCommand.undo h.state,
      undoStack := h.undoStack.dropLast,
      redoStack := h.redoStack ++ [lastCommand] }

/-- `redo()`: no-op on an empty redo stack, else re-apply the last undone
command and shift it back to the undo stack. -/
def History.redo {T : Type} (h : History T) : History T :=
  match h.redoStack.getLast? with
  | Option.none => h
  | some lastCommand =>
    { state := lastCommand.execute h.state,
      undoStack := h.undoStack ++ [lastCommand],
      redoStack := h.redoStack.dropLast }

/-- `canUndo = undoStack.length > 0`. -/
def History.canUndo {T : Type} (h : History T) : Bool :=
  decide (0 < h.undoStack.length)

/-- `canRedo = redoStack.length > 0`. -/
def History.canRedo {T : Type} (h : History T) : Bool :=
  decide (0 < h.redoStack.length)

/-! ## The canvas facade (`useCanvas.ts`, command-log version)

The second `useCanvas` in `src/hooks/useCanvas.ts` (lines 213-469 of the
concatenated file) wraps every content mutation as a `Command<CanvasState>`
executed through `useHistory`, while the selection operations write the
state directly through `setCanvasState` and bypass the log. -/

/-- The `AddBoxCommand` built in `addBox`; the box itself was assembled by
the caller with a fresh uuid, empty text and `selected: false`. -/
def mkAddBoxCommand (newBox : Box) : Command CanvasState :=
  { execute := fun state => { state with boxes := state.boxes ++ [newBox] },
    undo := fun state =>
      { state with boxes := state.boxes.filter fun b => !(b.id == newBox.id) } }

/-- The `DeleteBoxCommand` built in `deleteBox`, capturing the deleted box
and its incident connections for the inverse. -/
def mkDeleteBoxCommand (id : String) (boxToDelete : Box)
    (connectionsToDelete : List Connection) : Command CanvasState :=
  { execute := fun state =>
      { state with
        boxes := state.boxes.filter fun b => !(b.id == id),
        connections := state.connections.filter fun c =>
          !(c.fromId == id) && !(c.toId == id) },
    undo := fun state =>
      { state with
        boxes := state.boxes ++ [boxToDelete],
        connections := state.connections ++ connectionsToDelete } }

/-- The `UpdateBoxCommand` built in `updateBox`, capturing the prior text
and dimensions of `boxToUpdate`. -/
def mkUpdateBoxCommand (id : String) (boxToUpdate : Box) (text : String)
    (width height : Int) : Command CanvasState :=
  { execute := fun state =>
      { state with boxes := state.boxes.map fun b =>
          if b.id == id then { b with text := text, width := width, height := height }
          else b },
    undo := fun state =>
      { state with boxes := state.boxes.map fun b =>
          if b.id == id then
            { b with
              text := boxToUpdate.text,
              width := boxToUpdate.width,
              height := boxToUpdate.height }
          else b } }

/-- The `AddConnectionCommand` built in `addConnection`; new connections
are created with type `Forward`. -/
def mkAddConnectionCommand (fromId toId : String) : Command CanvasState :=
  { execute := fun state =>
      { state with connections := state.connections ++
          [{ fromId := fromId, toId := toId, ctype := ConnectionType.forward }] },
    undo := fun state =>
      { state with connections := state.connections.filter fun c =>
          !(c.fromId == fromId && c.toId == toId) } }

/-- The `MoveCommand` built in `moveBoxes` / `moveSelectedBoxes`: a
whole-state before/after pair. -/
def mkMoveCommand (oldState newState : CanvasState) : Command CanvasState :=
  { execute := fun _ => newState,
    undo := fun _ => oldState }

/-- `addBox`: builds the new box record and executes an add command
(the source never checks for overlap here; the mouse-up handler guards). -/
def canvasAddBox (h : History CanvasState) (newBox : Box) :
    History CanvasState :=
  h.execute (mkAddBoxCommand newBox)

/-- `deleteBox`: returns unchanged when the id is absent, else captures the
box and its incident connections and executes a delete command. -/
def canvasDeleteBox (h : History CanvasState) (id : String) :
    History CanvasState :=
  match h.state.boxes.find? fun b => b.id == id with
  | Option.none => h
  | some boxToDelete =>
    let connectionsToDelete :=
      h.state.connections.filter fun c => c.fromId == id || c.toId == id
    h.execute (mkDeleteBoxCommand id boxToDelete connectionsToDelete)

/-- `updateBox`: returns unchanged when the id is absent, else executes an
update command capturing the prior text and dimensions. -/
def canvasUpdateBox (h : History CanvasState) (id : String) (text : String)
    (width height : Int) : History CanvasState :=
  match h.state.boxes.find? fun b => b.id == id with
  | Option.none => h
  | some boxToUpdate =>
    h.execute (mkUpdateBoxCommand id boxToUpdate text width height)

/-- `addConnection`: rejects self-loops and duplicate unordered pairs,
else executes an add-connection command. -/
def canvasAddConnection (h : History CanvasState) (fromId toId : String) :
    History CanvasState :=
  if fromId == toId then h
  else if h.state.connections.any fun c =>
      (c.fromId == fromId && c.toId == toId) ||
      (c.fromId == toId && c.toId == fromId) then h
  else h.execute (mkAddConnectionCommand fromId toId)

/-- `moveBoxes` / `moveSelectedBoxes`: captures the current state as
`oldState` and executes a move command towards the resolved `newState`. -/
def canvasMove (h : History CanvasState) (newState : CanvasState) :
    History CanvasState :=
  h.execute (mkMoveCommand h.state newState)

/-- The state update of `toggleBoxSelection`: flip one box's flag. -/
def toggleBoxSelectionState (s : CanvasState) (id : String) : CanvasState :=
  { s with boxes := s.boxes.map fun b =>
      if b.id == id then { b with selected := !b.selected } else b }

/-- The state update of `clearSelection`: clear every flag. -/
def clearSelectionState (s : CanvasState) : CanvasState :=
  { s with boxes := s.boxes.map fun b => { b with selected := false } }

/-- The state update of `selectBoxes`: the flag becomes membership in
`ids` (`ids.includes(b.id)`). -/
def selectBoxesState (s : CanvasState) (ids : List String) : CanvasState :=
  { s with boxes := s.boxes.map fun b =>
      { b with selected := ids.contains b.id } }

/-- `toggleBoxSelection`: writes through `setCanvasState`, leaving both
command stacks untouched. -/
def canvasToggleBoxSelection (h : History CanvasState) (id : String) :
    History CanvasState :=
  { h with state := toggleBoxSelectionState h.state id }

/-- `clearSelection`: writes through `setCanvasState`, leaving both
command stacks untouched. -/
def canvasClearSelection (h : History CanvasState) : History CanvasState :=
  { h with state := clearSelectionState h.state }

/-- `selectBoxes`: writes through `setCanvasState`, leaving both command
stacks untouched. -/
def canvasSelectBoxes (h : History CanvasState) (ids : List String) :
    History CanvasState :=
  { h with state := selectBoxesState h.state ids }

/-! ## The add-box path

The only call site of `addBox` is the mouse-up handler (`handleMouseUp`,
src/unnamed/part_004 lines 156-166): a drawn preview is committed only if it
exceeds the minimum size and collides with no existing box. -/

/-- The box record `addBox` assembles from a committed preview. -/
def mkNewBox (preview : Rect) (newId : String) : Box :=
  { id := newId, x := preview.x, y := preview.y,
    width := preview.width, height := preview.height,
    text := "", selected := false }

/-- The add path of `handleMouseUp`: commit the preview only when it is
bigger than one cell in some direction and collides with nothing. -/
def handleMouseUpAddBox (newBoxPreview : Rect) (boxes : List Box)
    (newId : String) : List Box :=
  if (newBoxPreview.width > 1 ∨ newBoxPreview.height > 1) ∧
      ¬isPreviewCollidingWithAny newBoxPreview boxes then
    boxes ++ [mkNewBox newBoxPreview newId]
  else
    boxes

/-! ## Operation sequences and the no-overlap invariant -/

/-- The externally issued operations considered by the no-overlap claim
(the text-update operation is handled separately, see `C3`). -/
inductive CanvasOp where
  | addBox (preview : Rect) (newId : String)
  | deleteBox (id : String)
  | moveBox (dragBoxId : String) (newGridX newGridY : Int)
  | addConnection (fromId toId : String)
  | toggleSelection (id : String)
  | selectBoxes (ids : List String)
  | clearSelection

/-- The state effect of one operation, each clause the `.state` projection
of the corresponding facade function. -/
def applyOp (s : CanvasState) : CanvasOp → CanvasState
  | .addBox preview newId =>
    { s with boxes := handleMouseUpAddBox preview s.boxes newId }
  | .deleteBox id =>
    match s.boxes.find? fun b => b.id == id with
    | Option.none => s
    | some boxToDelete =>
      (mkDeleteBoxCommand id boxToDelete
        (s.connections.filter fun c => c.fromId == id || c.toId == id)).execute s
  | .moveBox dragBoxId newGridX newGridY =>
    { s with boxes := resolveMove s.boxes dragBoxId newGridX newGridY }
  | .addConnection fromId toId =>
    if fromId == toId then s
    else if s.connections.any fun c =>
        (c.fromId == fromId && c.toId == toId) ||
        (c.fromId == toId && c.toId == fromId) then s
    else (mkAddConnectionCommand fromId toId).execute s
  | .toggleSelection id => toggleBoxSelectionState s id
  | .selectBoxes ids => selectBoxesState s ids
  | .clearSelection => clearSelectionState s

/-- No two distinct boxes of the list intersect. -/
def noOverlap (boxes : List Box) : Prop :=
  boxes.Pairwise fun a b => doBoxesIntersect a.rect b.rect = false

instance noOverlap.decidable (boxes : List Box) : Decidable (noOverlap boxes) := by
  unfold noOverlap
  infer_instance

/-- A well-formed state: no overlap and pairwise distinct box ids (the ids
are uuids). -/
def goodState (s : CanvasState) : Prop :=
  noOverlap s.boxes ∧ (s.boxes.map Box.id).Nodup

/-- The id supplied to an add operation is fresh — in the source it is a
freshly drawn `uuidv4()`. -/
def opFresh (s : CanvasState) : CanvasOp → Bool
  | .addBox _ newId => s.boxes.all fun b => !(b.id == newId)
  | _ => true

/-- Every add operation along the trace uses a fresh uuid. -/
def traceFresh (s : CanvasState) : List CanvasOp → Bool
  | [] => true
  | op :: ops => opFresh s op && traceFresh (applyOp s op) ops

/-! ## Undoable operations and selection operations -/

/-- The five operations the facade routes through the command log. -/
inductive UndoableOp where
  | addBox (newBox : Box)
  | deleteBox (id : String)
  | updateBox (id : String) (text : String) (width height : Int)
  | addConnection (fromId toId : String)
  | move (newState : CanvasState)

/-- Dispatch of an undoable operation to its facade function. -/
def applyUndoable (h : History CanvasState) : UndoableOp → History CanvasState
  | .addBox newBox => canvasAddBox h newBox
  | .deleteBox id => canvasDeleteBox h id
  | .updateBox id text width height => canvasUpdateBox h id text width height
  | .addConnection fromId toId => canvasAddConnection h fromId toId
  | .move newState => canvasMove h newState

/-- Side conditions under which the facade actually executes a command:
add uses a fresh uuid; delete and update target an existing box in a state
whose ids are distinct uuids; add-connection passes the self-loop and
duplicate guards; move has none. -/
def okUndoable (s : CanvasState) : UndoableOp → Prop
  | .addBox newBox => ∀ b ∈ s.boxes, b.id ≠ newBox.id
  | .deleteBox id =>
    (∃ b ∈ s.boxes, b.id = id) ∧ (s.boxes.map Box.id).Nodup
  | .updateBox id _ _ _ =>
    (∃ b ∈ s.boxes, b.id = id) ∧ (s.boxes.map Box.id).Nodup
  | .addConnection fromId toId =>
    fromId ≠ toId ∧
      ∀ c ∈ s.connections,
        ¬(c.fromId = fromId ∧ c.toId = toId) ∧
        ¬(c.fromId = toId ∧ c.toId = fromId)
  | .move _ => True

/-- Value equality of canvas states: the spec's `CanvasState` holds
order-irrelevant collections, so two states are equal as values when their
box collections and connection collections hold the same elements. -/
def stateEquiv (s t : CanvasState) : Prop :=
  s.boxes.Perm t.boxes ∧ s.connections.Perm t.connections

/-- The three selection operations, which write past the command log. -/
inductive SelOp where
  | toggle (id : String)
  | select (ids : List String)
  | clear

/-- Dispatch of a selection operation to its facade function. -/
def applySelOp (h : History CanvasState) : SelOp → History CanvasState
  | .toggle id => canvasToggleBoxSelection h id
  | .select ids => canvasSelectBoxes h ids
  | .clear => canvasClearSelection h

/-- Number of boxes not yet planned, the termination measure of the
propagation loop. -/
def unplannedCount (prevBoxes toUpdate : List Box) : Nat :=
  prevBoxes.countP fun b => !(toUpdate.any fun u => u.id == b.id)

/-! ## Concrete boxes for the spec's test scenarios -/

/-- Box `A{0,0,2,1}` of the spec's concrete scenarios. -/
def boxA : Box :=
  { id := "a", x := 0, y := 0, width := 2, height := 1, text := "", selected := false }

/-- Box `B{2,0,2,1}`, flush against `boxA`. -/
def boxB : Box :=
  { id := "b", x := 2, y := 0, width := 2, height := 1, text := "", selected := false }

/-- Box `C{4,0,2,1}`, flush against `boxB`. -/
def boxC : Box :=
  { id := "c", x := 4, y := 0, width := 2, height := 1, text := "", selected := false }

/-- A box at `(3,0)` used to drive a push into the boundary. -/
def boxA3 : Box :=
  { id := "a", x := 3, y := 0, width := 2, height := 1, text := "", selected := false }

/-- A box parked at the origin, in the way of `boxA3`'s push. -/
def boxB0 : Box :=
  { id := "b", x := 0, y := 0, width := 2, height := 1, text := "", selected := false }

/-- A box away from the boundary, dragged to a negative target. -/
def boxA5 : Box :=
  { id := "a", x := 5, y := 3, width := 2, height := 1, text := "", selected := false }

/-- A connection between the two example boxes. -/
def connAB : Connection :=
  { fromId := "a", toId := "b", ctype := ConnectionType.forward }

/-- A small example history: two flush boxes joined by a connection,
empty command stacks. -/
def exampleHistory : History CanvasState :=
  { state := { boxes := [boxA, boxB], connections := [connAB] },
    undoStack := [], redoStack := [] }

/-- A preview rectangle overlapping `boxA`. -/
def previewN : Rect := { x := 1, y := 0, width := 2, height := 1 }

/-- The box the facade would assemble from `previewN` with uuid `"n"`. -/
def boxN : Box :=
  { id := "n", x := 1, y := 0, width := 2, height := 1, text := "", selected := false }

/-- A one-box history holding only `boxA`. -/
def historyA : History CanvasState :=
  { state := { boxes := [boxA], connections := [] },
    undoStack := [], redoStack := [] }

/-! ## Geometry lemmas -/

theorem doBoxesIntersect_iff (a b : Rect) :
    doBoxesIntersect a b = true ↔
      a.x < b.x + b.width ∧ b.x < a.x + a.width ∧
      a.y < b.y + b.height ∧ b.y < a.y + a.height := by
  unfold doBoxesIntersect
  split
  · rename_i h
    simp only [Bool.false_eq_true, false_iff]
    omega
  · split
    · rename_i h1 h2
      simp only [Bool.false_eq_true, false_iff]
      omega
    · rename_i h1 h2
      simp only [true_iff]
      omega

theorem doBoxesIntersect_symm (a b : Rect) :
    doBoxesIntersect a b = doBoxesIntersect b a := by
  rw [Bool.eq_iff_iff, doBoxesIntersect_iff, doBoxesIntersect_iff]
  tauto

theorem translateBox_id (b : Box) (dx dy : Int) :
    (translateBox b dx dy).id = b.id := rfl

theorem doBoxesIntersect_translate (a b : Box) (dx dy : Int) :
    doBoxesIntersect (translateBox a dx dy).rect (translateBox b dx dy).rect =
      doBoxesIntersect a.rect b.rect := by
  rw [Bool.eq_iff_iff, doBoxesIntersect_iff, doBoxesIntersect_iff]
  simp only [translateBox, Box.rect]
  omega

theorem withPos_eq_translateBox (b : Box) (px py : Int) :
    { b with x := px, y := py } = translateBox b (px - b.x) (py - b.y) := by
  simp only [translateBox]
  congr 1 <;> omega

/-! ## Push-propagation lemmas -/

theorem pushOthers_planned {deltaX deltaY : Int} {movingBox : Box} :
    ∀ {others toUpdate : List Box} {queue : List String}
      {toUpdate2 : List Box} {queue2 : List String},
      pushOthers deltaX deltaY movingBox others toUpdate queue =
        some (toUpdate2, queue2) →
      ∀ u ∈ toUpdate2,
        u ∈ toUpdate ∨ ∃ b ∈ others, u = translateBox b deltaX deltaY := by
  intro others
  induction others with
  | nil =>
    intro toUpdate queue toUpdate2 queue2 hpush u hu
    simp only [pushOthers] at hpush
    cases hpush
    exact Or.inl hu
  | cons other rest ih =>
    intro toUpdate queue toUpdate2 queue2 hpush u hu
    simp only [pushOthers] at hpush
    split at hpush
    · rcases ih hpush u hu with h | ⟨b, hb, hbe⟩
      · exact Or.inl h
      · exact Or.inr ⟨b, List.mem_cons_of_mem _ hb, hbe⟩
    · split at hpush
      · split at hpush
        · cases hpush
        · rcases ih hpush u hu with h | ⟨b, hb, hbe⟩
          · rcases List.mem_append.mp h with h | h
            · exact Or.inl h
            · rcases List.mem_singleton.mp h with rfl
              exact Or.inr ⟨other, List.mem_cons_self _ _, rfl⟩
          · exact Or.inr ⟨b, List.mem_cons_of_mem _ hb, hbe⟩
      · rcases ih hpush u hu with h | ⟨b, hb, hbe⟩
        · exact Or.inl h
        · exact Or.inr ⟨b, List.mem_cons_of_mem _ hb, hbe⟩

theorem bfsLoop_planned {deltaX deltaY : Int} {prevBoxes : List Box} :
    ∀ {fuel : Nat} {toUpdate : List Box} {pending : List String}
      {toUpdateF : List Box},
      bfsLoop deltaX deltaY prevBoxes fuel toUpdate pending = .ok toUpdateF →
      ∀ u ∈ toUpdateF,
        u ∈ toUpdate ∨ ∃ b ∈ prevBoxes, u = translateBox b deltaX deltaY := by
  intro fuel
  induction fuel with
  | zero =>
    intro toUpdate pending toUpdateF hloop u hu
    cases pending with
    | nil =>
      simp only [bfsLoop] at hloop
      cases hloop
      exact Or.inl hu
    | cons currentId rest =>
      simp only [bfsLoop] at hloop
      exact BfsResult.noConfusion hloop
  | succ fuel ih =>
    intro toUpdate pending toUpdateF hloop u hu
    cases pending with
    | nil =>
      simp only [bfsLoop] at hloop
      cases hloop
      exact Or.inl hu
    | cons currentId rest =>
      simp only [bfsLoop] at hloop
      split at hloop
      · cases hloop
        exact Or.inl hu
      · split at hloop
        · exact BfsResult.noConfusion hloop
        · rename_i movingBox hfind toUpdate2 pending2 hpush
          rcases ih hloop u hu with h | h
          · exact pushOthers_planned hpush u h
          · exact Or.inr h

theorem resolveMoveOutcome_moved_inv {prevBoxes : List Box} {dragBoxId : String}
    {newGridX newGridY : Int} {finalBoxes : List Box}
    (h : resolveMoveOutcome prevBoxes dragBoxId newGridX newGridY =
      .moved finalBoxes) :
    ∃ currentBox toUpdate,
      prevBoxes.find? (fun b => b.id == dragBoxId) = some currentBox ∧
      bfsLoop (max 0 newGridX - currentBox.x) (max 0 newGridY - currentBox.y)
        prevBoxes (prevBoxes.length + 2)
        [{ currentBox with x := max 0 newGridX, y := max 0 newGridY }]
        [dragBoxId] = .ok toUpdate ∧
      residualCollision toUpdate finalBoxes = false ∧
      finalBoxes = prevBoxes.map fun b =>
        ((toUpdate.find? fun u => u.id == b.id).getD b) := by
  simp only [resolveMoveOutcome] at h
  split at h
  · exact MoveOutcome.noConfusion h
  · rename_i currentBox hfind
    split at h
    · exact MoveOutcome.noConfusion h
    · split at h
      · exact MoveOutcome.noConfusion h
      · exact MoveOutcome.noConfusion h
      · rename_i toUpdate hbfs
        split at h
        · exact MoveOutcome.noConfusion h
        · rename_i hres
          cases h
          exact ⟨currentBox, toUpdate, hfind, hbfs,
            Bool.not_eq_true _ ▸ eq_false_of_ne_true hres, rfl⟩

theorem resolveMove_map_id (prevBoxes : List Box) (dragBoxId : String)
    (newGridX newGridY : Int) :
    (resolveMove prevBoxes dragBoxId newGridX newGridY).map Box.id =
      prevBoxes.map Box.id := by
  unfold resolveMove
  cases hout : resolveMoveOutcome prevBoxes dragBoxId newGridX newGridY with
  | notFound => rfl
  | zeroDelta => rfl
  | boundaryAbort => rfl
  | residualAbort => rfl
  | outOfFuel => rfl
  | moved finalBoxes =>
    obtain ⟨cb, toUpdate, hfind, hbfs, hres, hfinal⟩ :=
      resolveMoveOutcome_moved_inv hout
    subst hfinal
    show (prevBoxes.map _).map Box.id = prevBoxes.map Box.id
    rw [List.map_map]
    apply List.map_congr_left
    intro b _
    show ((toUpdate.find? fun u => u.id == b.id).getD b).id = b.id
    cases hf : toUpdate.find? fun u => u.id == b.id with
    | none => rfl
    | some u =>
      have h1 : (u.id == b.id) = true :=
        List.find?_some (p := fun w : Box => w.id == b.id) hf
      exact eq_of_beq h1

theorem residualCollision_false {toUpdate finalBoxes : List Box}
    (hres : residualCollision toUpdate finalBoxes = false)
    {u o : Box} (hu : u ∈ toUpdate) (ho : o ∈ finalBoxes)
    (hid : u.id ≠ o.id)
    (hnot : (toUpdate.find? fun w => w.id == o.id) = Option.none) :
    doBoxesIntersect u.rect o.rect = false := by
  unfold residualCollision at hres
  rw [List.any_eq_false] at hres
  have h2 : (finalBoxes.any fun other =>
      if u.id == other.id ∨ (toUpdate.any fun w => w.id == other.id) then false
      else doBoxesIntersect u.rect other.rect) = false := by
    have := hres u hu
    simpa using this
  rw [List.any_eq_false] at h2
  have h3 := h2 o ho
  rw [if_neg] at h3
  · simpa using h3
  · rintro (hc | hc)
    · exact hid (eq_of_beq hc)
    · rcases List.any_eq_true.mp hc with ⟨w, hw, hwid⟩
      exact (List.find?_eq_none.mp hnot w hw) hwid

theorem resolveMove_noOverlap {prevBoxes : List Box} (dragBoxId : String)
    (newGridX newGridY : Int)
    (hnodup : (prevBoxes.map Box.id).Nodup) (hno : noOverlap prevBoxes) :
    noOverlap (resolveMove prevBoxes dragBoxId newGridX newGridY) := by
  unfold resolveMove
  cases hout : resolveMoveOutcome prevBoxes dragBoxId newGridX newGridY with
  | notFound => exact hno
  | zeroDelta => exact hno
  | boundaryAbort => exact hno
  | residualAbort => exact hno
  | outOfFuel => exact hno
  | moved finalBoxes =>
    obtain ⟨cb, toUpdate, hfind, hbfs, hres, hfinal⟩ :=
      resolveMoveOutcome_moved_inv hout
    have hplanned : ∀ u ∈ toUpdate, ∃ b ∈ prevBoxes,
        u = translateBox b (max 0 newGridX - cb.x) (max 0 newGridY - cb.y) := by
      intro u hu
      rcases bfsLoop_planned hbfs u hu with h | h
      · rcases List.mem_singleton.mp h with rfl
        exact ⟨cb, List.mem_of_find?_eq_some hfind,
          withPos_eq_translateBox cb _ _⟩
      · exact h
    subst hfinal
    show noOverlap (prevBoxes.map _)
    unfold noOverlap
    rw [List.pairwise_map]
    have hids : prevBoxes.Pairwise fun a b => a.id ≠ b.id :=
      List.pairwise_map.mp hnodup
    have hcomb := hids.and hno
    refine hcomb.imp_of_mem ?_
    intro a b ha hb hab
    obtain ⟨hid, hint⟩ := hab
    have hinj := List.inj_on_of_nodup_map hnodup
    show doBoxesIntersect ((toUpdate.find? fun u => u.id == a.id).getD a).rect
      ((toUpdate.find? fun u => u.id == b.id).getD b).rect = false
    have hmem_final : ∀ c ∈ prevBoxes,
        (toUpdate.find? fun u => u.id == c.id) = Option.none →
        c ∈ prevBoxes.map fun d => ((toUpdate.find? fun u => u.id == d.id).getD d) := by
      intro c hc hfc
      have : ((toUpdate.find? fun u => u.id == c.id).getD c) = c := by
        rw [hfc]; rfl
      exact this ▸ List.mem_map_of_mem _ hc
    cases hfa : toUpdate.find? fun u => u.id == a.id with
    | none =>
      cases hfb : toUpdate.find? fun u => u.id == b.id with
      | none => exact hint
      | some v =>
        have hvmem := List.mem_of_find?_eq_some hfb
        have hvid' : (v.id == b.id) = true :=
          List.find?_some (p := fun w : Box => w.id == b.id) hfb
        have hvid : v.id = b.id := eq_of_beq hvid'
        have hva : v.id ≠ a.id := fun hc => hid ((hvid ▸ hc).symm)
        have hcol := residualCollision_false hres hvmem
          (hmem_final a ha hfa) hva hfa
        show doBoxesIntersect a.rect v.rect = false
        rw [doBoxesIntersect_symm]
        exact hcol
    | some u =>
      have humem := List.mem_of_find?_eq_some hfa
      have huid' : (u.id == a.id) = true :=
        List.find?_some (p := fun w : Box => w.id == a.id) hfa
      have huid : u.id = a.id := eq_of_beq huid'
      obtain ⟨a0, ha0, ha0e⟩ := hplanned u humem
      have ha0id : a0.id = a.id := by rw [← huid, ha0e]; rfl
      have ha0a : a0 = a := hinj ha0 ha ha0id
      cases hfb : toUpdate.find? fun u => u.id == b.id with
      | none =>
        have hub : u.id ≠ b.id := fun hc => hid (huid ▸ hc)
        exact residualCollision_false hres humem (hmem_final b hb hfb) hub hfb
      | some v =>
        have hvmem := List.mem_of_find?_eq_some hfb
        have hvid' : (v.id == b.id) = true :=
          List.find?_some (p := fun w : Box => w.id == b.id) hfb
        have hvid : v.id = b.id := eq_of_beq hvid'
        obtain ⟨b0, hb0, hb0e⟩ := hplanned v hvmem
        have hb0id : b0.id = b.id := by rw [← hvid, hb0e]; rfl
        have hb0b : b0 = b := hinj hb0 hb hb0id
        rw [ha0e, hb0e, ha0a, hb0b]
        simp only [Option.getD_some]
        rw [doBoxesIntersect_translate]
        exact hint

/-! ## Termination of the propagation loop -/

theorem countP_lt_of_mem {α : Type} {l : List α} {p q : α → Bool}
    (hpq : ∀ x, q x = true → p x = true) {b : α} (hb : b ∈ l)
    (hpb : p b = true) (hqb : q b = false) :
    l.countP q < l.countP p := by
  induction l with
  | nil => cases hb
  | cons hd tl ih =>
    rw [List.countP_cons, List.countP_cons]
    have hmono : tl.countP q ≤ tl.countP p :=
      List.countP_mono_left fun x _ hq => hpq x hq
    have hif : (if q hd then 1 else 0) ≤ (if p hd then 1 else 0) := by
      by_cases hq : q hd = true
      · rw [hq, hpq hd hq]
      · rw [Bool.not_eq_true] at hq
        simp [hq]
    rcases List.mem_cons.mp hb with rfl | hbtl
    · rw [hpb, hqb]
      simp
      omega
    · have := ih hbtl
      omega

theorem pushOthers_measure {deltaX deltaY : Int} {movingBox : Box}
    {prevBoxes : List Box} :
    ∀ {others toUpdate : List Box} {queue : List String}
      {toUpdate2 : List Box} {queue2 : List String},
      pushOthers deltaX deltaY movingBox others toUpdate queue =
        some (toUpdate2, queue2) →
      (∀ o ∈ others, o ∈ prevBoxes) →
      queue2.length + unplannedCount prevBoxes toUpdate2 ≤
        queue.length + unplannedCount prevBoxes toUpdate := by
  intro others
  induction others with
  | nil =>
    intro toUpdate queue toUpdate2 queue2 hpush _
    simp only [pushOthers] at hpush
    cases hpush
    exact Nat.le_refl _
  | cons other rest ih =>
    intro toUpdate queue toUpdate2 queue2 hpush hmem
    have hsub : ∀ o ∈ rest, o ∈ prevBoxes :=
      fun o ho => hmem o (List.mem_cons_of_mem _ ho)
    simp only [pushOthers] at hpush
    split at hpush
    · exact ih hpush hsub
    · split at hpush
      · split at hpush
        · cases hpush
        · rename_i hnotplanned hintersect hbound
          have h1 := ih hpush hsub
          have hdec : unplannedCount prevBoxes
              (toUpdate ++ [{ other with
                x := other.x + deltaX, y := other.y + deltaY }]) <
              unplannedCount prevBoxes toUpdate := by
            refine countP_lt_of_mem ?_
              (hmem other (List.mem_cons_self _ _)) ?_ ?_
            · intro x hqx
              rw [Bool.not_eq_true'] at hqx ⊢
              rw [List.any_append] at hqx
              exact (Bool.or_eq_false_iff.mp hqx).1
            · rw [Bool.not_eq_true']
              exact eq_false_of_ne_true hnotplanned
            · rw [Bool.not_eq_false']
              rw [List.any_append]
              apply Bool.or_eq_true_iff.mpr
              right
              simp
          rw [List.length_append] at h1
          unfold unplannedCount at h1 hdec ⊢
          simp only [List.length_singleton] at h1
          omega
      · exact ih hpush hsub

theorem bfsLoop_no_outOfFuel {deltaX deltaY : Int} {prevBoxes : List Box} :
    ∀ {fuel : Nat} {toUpdate : List Box} {pending : List String},
      pending.length + unplannedCount prevBoxes toUpdate < fuel →
      bfsLoop deltaX deltaY prevBoxes fuel toUpdate pending ≠ .outOfFuel := by
  intro fuel
  induction fuel with
  | zero =>
    intro toUpdate pending h
    exact absurd h (Nat.not_lt_zero _)
  | succ fuel ih =>
    intro toUpdate pending h
    cases pending with
    | nil =>
      intro hc
      simp only [bfsLoop] at hc
      exact BfsResult.noConfusion hc
    | cons currentId rest =>
      intro hc
      simp only [bfsLoop] at hc
      split at hc
      · exact BfsResult.noConfusion hc
      · split at hc
        · exact BfsResult.noConfusion hc
        · rename_i movingBox hfind toUpdate2 pending2 hpush
          refine ih ?_ hc
          have hm := pushOthers_measure hpush fun o ho => ho
          rw [List.length_cons] at h
          omega

/-! ## Claim theorems -/

/-- C1: whenever the push-propagation resolver rejects a drag — because a
transitively pushed box would cross `x<0` or `y<0`, or because the final
residual-collision check fires — the returned box collection is the input
collection itself, with no partial application of planned displacements. -/
theorem C1_reject_is_noop (prevBoxes : List Box) (dragBoxId : String)
    (newGridX newGridY : Int)
    (h : resolveMoveOutcome prevBoxes dragBoxId newGridX newGridY =
          .boundaryAbort ∨
        resolveMoveOutcome prevBoxes dragBoxId newGridX newGridY =
          .residualAbort) :
    resolveMove prevBoxes dragBoxId newGridX newGridY = prevBoxes := by
  unfold resolveMove
  rcases h with h | h <;> rw [h]

/-- Witness for C1: dragging `boxA3` to `(1,0)` pushes `boxB0` to `(-2,0)`,
a boundary rejection, and the state comes back unchanged. -/
theorem C1_reject_is_noop_witness :
    (resolveMoveOutcome [boxA3, boxB0] "a" 1 0 = .boundaryAbort ∨
     resolveMoveOutcome [boxA3, boxB0] "a" 1 0 = .residualAbort) ∧
    resolveMove [boxA3, boxB0] "a" 1 0 = [boxA3, boxB0] :=
  ⟨Or.inl (by decide), C1_reject_is_noop _ _ _ _ (Or.inl (by decide))⟩

/-- C5 (counterexample): a move request with `nx < 0` is not rejected — the
source clamps `Math.max(0, newGridX)` and moves the box.  Dragging the box
at `(5,3)` towards `(-1,0)` relocates it to the clamped `(0,0)`. -/
theorem C5_counterexample :
    resolveMove [boxA5] "a" (-1) 0 =
      [{ id := "a", x := 0, y := 0, width := 2, height := 1,
         text := "", selected := false }] ∧
    resolveMove [boxA5] "a" (-1) 0 ≠ [boxA5] := by
  constructor
  · decide
  · decide

/-- C5 (amended): a move request towards `(nx, ny)` behaves exactly like
the request towards the componentwise clamp `(max 0 nx, max 0 ny)`; the
dragged box is placed at the clamped position rather than the move being
rejected. -/
theorem C5_clamp_semantics (prevBoxes : List Box) (dragBoxId : String)
    (newGridX newGridY : Int) :
    resolveMoveOutcome prevBoxes dragBoxId newGridX newGridY =
      resolveMoveOutcome prevBoxes dragBoxId (max 0 newGridX) (max 0 newGridY) ∧
    resolveMove prevBoxes dragBoxId newGridX newGridY =
      resolveMove prevBoxes dragBoxId (max 0 newGridX) (max 0 newGridY) := by
  have h1 : resolveMoveOutcome prevBoxes dragBoxId newGridX newGridY =
      resolveMoveOutcome prevBoxes dragBoxId (max 0 newGridX) (max 0 newGridY) := by
    unfold resolveMoveOutcome
    simp only [← max_assoc, max_self]
  exact ⟨h1, by unfold resolveMove; rw [h1]⟩

/-- C6 (counterexample): the claim's iff fails for the local
`doBoxesIntersect` at the bottom of the marquee-selection interaction file:
at the merely touching rectangles `{0,0,2,1}` and `{2,0,2,1}` it returns
`true`, while the half-open formula (and the collision-utility test) say
the two do not intersect. -/
theorem C6_counterexample :
    doBoxesIntersectLocal { x := 0, y := 0, width := 2, height := 1 }
        { x := 2, y := 0, width := 2, height := 1 } = true ∧
    ¬((0 : Int) < 2 + 2 ∧ (2 : Int) < 0 + 2 ∧
      (0 : Int) < 0 + 1 ∧ (0 : Int) < 0 + 1) ∧
    doBoxesIntersect { x := 0, y := 0, width := 2, height := 1 }
        { x := 2, y := 0, width := 2, height := 1 } = false := by
  refine ⟨by decide, by decide, by decide⟩

/-- C6 (amended): the collision-utility `doBoxesIntersect` — the test every
live call site resolves to — satisfies the half-open contract: it returns
`true` iff `a.x < b.x+b.w ∧ b.x < a.x+a.w ∧ a.y < b.y+b.h ∧ b.y < a.y+a.h`,
and rectangles whose edges merely touch are reported as not intersecting. -/
theorem C6_half_open_contract (a b : Rect) :
    (doBoxesIntersect a b = true ↔
      a.x < b.x + b.width ∧ b.x < a.x + a.width ∧
      a.y < b.y + b.height ∧ b.y < a.y + a.height) ∧
    (a.x + a.width = b.x → doBoxesIntersect a b = false) := by
  refine ⟨doBoxesIntersect_iff a b, fun h => ?_⟩
  unfold doBoxesIntersect
  rw [if_pos (Or.inl h.le)]

/-- Witness for C6 (amended): flush boxes at `x+w = 2 = b.x` do not
intersect. -/
theorem C6_half_open_contract_witness :
    doBoxesIntersect { x := 0, y := 0, width := 2, height := 1 }
      { x := 2, y := 0, width := 2, height := 1 } = false :=
  (C6_half_open_contract _ _).2 (by decide)

/-- C8: the selection operations never touch the undo or redo stack: the
stacks, `canUndo`, `canRedo`, and the command a subsequent `undo()` or
`redo()` would pop are all unchanged. -/
theorem C8_selection_bypasses_log (h : History CanvasState) (op : SelOp) :
    (applySelOp h op).undoStack = h.undoStack ∧
    (applySelOp h op).redoStack = h.redoStack ∧
    (applySelOp h op).canUndo = h.canUndo ∧
    (applySelOp h op).canRedo = h.canRedo ∧
    (applySelOp h op).undoStack.getLast? = h.undoStack.getLast? ∧
    (applySelOp h op).redoStack.getLast? = h.redoStack.getLast? := by
  cases op <;> exact ⟨rfl, rfl, rfl, rfl, rfl, rfl⟩

/-- C10: the propagation loop terminates on every input: each box is
planned at most once before being enqueued, so the fuel bound
`prevBoxes.length + 2` is never exhausted. -/
theorem C10_push_loop_terminates (prevBoxes : List Box) (dragBoxId : String)
    (newGridX newGridY : Int) :
    resolveMoveOutcome prevBoxes dragBoxId newGridX newGridY ≠ .outOfFuel := by
  intro hc
  simp only [resolveMoveOutcome] at hc
  split at hc
  · exact MoveOutcome.noConfusion hc
  · rename_i currentBox hfind
    split at hc
    · exact MoveOutcome.noConfusion hc
    · split at hc
      · rename_i hbfs
        refine bfsLoop_no_outOfFuel ?_ hbfs
        have hcount := List.countP_le_length
          (p := fun b : Box =>
            !(([{ currentBox with
                x := max 0 newGridX, y := max 0 newGridY }].any
              fun u => u.id == b.id)))
          (l := prevBoxes)
        unfold unplannedCount
        simp only [List.length_singleton]
        omega
      · exact MoveOutcome.noConfusion hc
      · split at hc
        · exact MoveOutcome.noConfusion hc
        · exact MoveOutcome.noConfusion hc

/-- C2: on a successful drag, every box of the store is either left in
place or translated by exactly the drag delta — the chain is a rigid
translation, never a minimum-separation nudge. -/
theorem C2_rigid_translation_chain (prevBoxes finalBoxes : List Box)
    (dragBoxId : String) (newGridX newGridY : Int) (currentBox : Box)
    (hnodup : (prevBoxes.map Box.id).Nodup)
    (hfind : prevBoxes.find? (fun b => b.id == dragBoxId) = some currentBox)
    (hmoved : resolveMoveOutcome prevBoxes dragBoxId newGridX newGridY =
      .moved finalBoxes) :
    List.Forall₂ (fun b b2 => b2 = b ∨
        b2 = translateBox b (max 0 newGridX - currentBox.x)
          (max 0 newGridY - currentBox.y))
      prevBoxes finalBoxes := by
  obtain ⟨cb, toUpdate, hfind2, hbfs, hres, hfinal⟩ :=
    resolveMoveOutcome_moved_inv hmoved
  rw [hfind] at hfind2
  have hcb : currentBox = cb := Option.some.inj hfind2
  subst hcb
  have hplanned : ∀ u ∈ toUpdate, ∃ b ∈ prevBoxes,
      u = translateBox b (max 0 newGridX - currentBox.x)
        (max 0 newGridY - currentBox.y) := by
    intro u hu
    rcases bfsLoop_planned hbfs u hu with h | h
    · rcases List.mem_singleton.mp h with rfl
      exact ⟨currentBox, List.mem_of_find?_eq_some hfind,
        withPos_eq_translateBox currentBox _ _⟩
    · exact h
  subst hfinal
  rw [List.forall₂_map_right_iff, List.forall₂_same]
  intro b hb
  cases hf : toUpdate.find? fun u => u.id == b.id with
  | none => exact Or.inl rfl
  | some u =>
    right
    have humem := List.mem_of_find?_eq_some hf
    have huid2 : (u.id == b.id) = true :=
      List.find?_some (p := fun w : Box => w.id == b.id) hf
    have huid : u.id = b.id := eq_of_beq huid2
    obtain ⟨b0, hb0, hb0e⟩ := hplanned u humem
    have hb0id : b0.id = b.id := by rw [← huid, hb0e]; rfl
    have hb0b : b0 = b := List.inj_on_of_nodup_map hnodup hb0 hb hb0id
    show u = translateBox b _ _
    rw [hb0e, hb0b]

/-- Witness for C2: the spec's three-box row.  Dragging `A{0,0,2,1}` to
`(1,0)` chain-pushes `B{2,0,2,1}` and `C{4,0,2,1}`; all three boxes shift
by exactly `(1,0)`. -/
theorem C2_rigid_translation_chain_witness :
    (([boxA, boxB, boxC].map Box.id).Nodup ∧
      [boxA, boxB, boxC].find? (fun b => b.id == "a") = some boxA ∧
      resolveMoveOutcome [boxA, boxB, boxC] "a" 1 0 =
        .moved [translateBox boxA 1 0, translateBox boxB 1 0,
          translateBox boxC 1 0]) ∧
    resolveMove [boxA, boxB, boxC] "a" 1 0 =
      [translateBox boxA 1 0, translateBox boxB 1 0, translateBox boxC 1 0] ∧
    List.Forall₂ (fun b b2 => b2 = b ∨ b2 = translateBox b (max 0 1 - boxA.x)
        (max 0 0 - boxA.y))
      [boxA, boxB, boxC]
      [translateBox boxA 1 0, translateBox boxB 1 0, translateBox boxC 1 0] :=
  ⟨⟨by decide, by decide, by decide⟩, by decide,
    C2_rigid_translation_chain [boxA, boxB, boxC]
      [translateBox boxA 1 0, translateBox boxB 1 0, translateBox boxC 1 0]
      "a" 1 0 boxA (by decide) (by decide) (by decide)⟩

/-- C4 (counterexample): the facade `addBox` of `useCanvas.ts` inserts the
new box unconditionally — with box `A{0,0,2,1}` present, adding a box at
`{1,0,2,1}` (which overlaps `A`) still inserts it, so the add operation is
not a no-op on overlap. -/
theorem C4_counterexample :
    isPreviewCollidingWithAny previewN [boxA] = true ∧
    (canvasAddBox historyA boxN).state.boxes = [boxA, boxN] ∧
    (canvasAddBox historyA boxN).state.boxes ≠ [boxA] :=
  ⟨by decide, by decide, by decide⟩

/-- C4 (amended): the overlap guard lives in the mouse-up commit path, not
in the facade: committing a drawn preview is a no-op whenever the preview
collides with an existing box, and through this path a box is only added
when it overlaps no existing box. -/
theorem C4_add_rejects_overlap (preview : Rect) (boxes : List Box)
    (newId : String) :
    (isPreviewCollidingWithAny preview boxes = true →
      handleMouseUpAddBox preview boxes newId = boxes) ∧
    (handleMouseUpAddBox preview boxes newId ≠ boxes →
      isPreviewCollidingWithAny preview boxes = false ∧
      ∀ b ∈ boxes, doBoxesIntersect preview b.rect = false) := by
  unfold handleMouseUpAddBox
  split
  · rename_i hcond
    obtain ⟨hsize, hnocol⟩ := hcond
    constructor
    · intro hcol
      exact absurd hcol hnocol
    · intro _
      have hfalse : isPreviewCollidingWithAny preview boxes = false :=
        eq_false_of_ne_true hnocol
      refine ⟨hfalse, fun b hb => ?_⟩
      have h2 := hfalse
      unfold isPreviewCollidingWithAny at h2
      rw [List.any_eq_false] at h2
      simpa using h2 b hb
  · constructor
    · intro _
      rfl
    · intro hne
      exact absurd rfl hne

/-- Witness for C4 (amended): committing a preview that overlaps `boxA`
leaves the store unchanged. -/
theorem C4_add_rejects_overlap_witness :
    isPreviewCollidingWithAny previewN [boxA] = true ∧
    handleMouseUpAddBox previewN [boxA] "n" = [boxA] :=
  ⟨by decide, (C4_add_rejects_overlap previewN [boxA] "n").1 (by decide)⟩

/-- C9: deleting a present box removes it and every connection touching it;
afterwards no box carries the deleted id and no connection references it,
and every other box and connection survives unchanged. -/
theorem C9_delete_cascades (h : History CanvasState) (X : String) (b0 : Box)
    (hfind : h.state.boxes.find? (fun b => b.id == X) = some b0) :
    (∀ b ∈ (canvasDeleteBox h X).state.boxes, b.id ≠ X) ∧
    (∀ c ∈ (canvasDeleteBox h X).state.connections,
      c.fromId ≠ X ∧ c.toId ≠ X) ∧
    (∀ b ∈ h.state.boxes, b.id ≠ X → b ∈ (canvasDeleteBox h X).state.boxes) ∧
    (∀ c ∈ h.state.connections, c.fromId ≠ X ∧ c.toId ≠ X →
      c ∈ (canvasDeleteBox h X).state.connections) ∧
    (∀ b ∈ (canvasDeleteBox h X).state.boxes, b ∈ h.state.boxes) ∧
    (∀ c ∈ (canvasDeleteBox h X).state.connections,
      c ∈ h.state.connections) := by
  unfold canvasDeleteBox
  rw [hfind]
  simp only [History.execute, mkDeleteBoxCommand]
  refine ⟨?_, ?_, ?_, ?_, ?_, ?_⟩
  · intro b hb
    rw [List.mem_filter, Bool.not_eq_true', beq_eq_false_iff_ne] at hb
    exact hb.2
  · intro c hc
    rw [List.mem_filter, Bool.and_eq_true, Bool.not_eq_true',
      Bool.not_eq_true', beq_eq_false_iff_ne, beq_eq_false_iff_ne] at hc
    exact hc.2
  · intro b hb hne
    rw [List.mem_filter, Bool.not_eq_true', beq_eq_false_iff_ne]
    exact ⟨hb, hne⟩
  · intro c hc hne
    rw [List.mem_filter, Bool.and_eq_true, Bool.not_eq_true',
      Bool.not_eq_true', beq_eq_false_iff_ne, beq_eq_false_iff_ne]
    exact ⟨hc, hne⟩
  · intro b hb
    exact (List.mem_filter.mp hb).1
  · intro c hc
    exact (List.mem_filter.mp hc).1

/-- Witness for C9: deleting box `a` from the two-box example with its
connection removes both the box and the connection and keeps `boxB`. -/
theorem C9_delete_cascades_witness :
    (exampleHistory.state.boxes.find? (fun b => b.id == "a") = some boxA) ∧
    ((∀ b ∈ (canvasDeleteBox exampleHistory "a").state.boxes, b.id ≠ "a") ∧
      (∀ c ∈ (canvasDeleteBox exampleHistory "a").state.connections,
        c.fromId ≠ "a" ∧ c.toId ≠ "a") ∧
      (∀ b ∈ exampleHistory.state.boxes, b.id ≠ "a" →
        b ∈ (canvasDeleteBox exampleHistory "a").state.boxes) ∧
      (∀ c ∈ exampleHistory.state.connections, c.fromId ≠ "a" ∧ c.toId ≠ "a" →
        c ∈ (canvasDeleteBox exampleHistory "a").state.connections) ∧
      (∀ b ∈ (canvasDeleteBox exampleHistory "a").state.boxes,
        b ∈ exampleHistory.state.boxes) ∧
      (∀ c ∈ (canvasDeleteBox exampleHistory "a").state.connections,
        c ∈ exampleHistory.state.connections)) :=
  ⟨by decide, C9_delete_cascades exampleHistory "a" boxA (by decide)⟩

/-! ## Command-log lemmas -/

theorem stateEquiv_refl (s : CanvasState) : stateEquiv s s :=
  ⟨List.Perm.refl _, List.Perm.refl _⟩

theorem execute_undo_state {T : Type} (h : History T) (cmd : Command T) :
    ((h.execute cmd).undo).state = cmd.undo (cmd.execute h.state) ∧
    (((h.execute cmd).undo).redo).state =
      cmd.execute (cmd.undo (cmd.execute h.state)) := by
  unfold History.execute History.undo History.redo
  simp [List.getLast?_concat, List.dropLast_concat]

theorem filter_beq_eq_singleton {l : List Box} {id : String} {b0 : Box}
    (hnodup : (l.map Box.id).Nodup)
    (hfind : l.find? (fun b => b.id == id) = some b0) :
    l.filter (fun b => b.id == id) = [b0] := by
  induction l with
  | nil => simp at hfind
  | cons hd tl ih =>
    rw [List.map_cons, List.nodup_cons] at hnodup
    by_cases hpd : (hd.id == id) = true
    · rw [List.find?_cons_of_pos (p := fun b : Box => b.id == id) _ hpd] at hfind
      have hb0 : hd = b0 := Option.some.inj hfind
      subst hb0
      rw [List.filter_cons_of_pos (p := fun b : Box => b.id == id) hpd]
      have htl : tl.filter (fun b => b.id == id) = [] := by
        rw [List.filter_eq_nil_iff]
        intro x hx hxid
        have hxid2 : x.id = id := eq_of_beq hxid
        have hhd : hd.id = id := eq_of_beq hpd
        exact hnodup.1 (by
          rw [← hhd] at hxid2
          exact hxid2 ▸ List.mem_map_of_mem Box.id hx)
      rw [htl]
    · rw [List.find?_cons_of_neg (p := fun b : Box => b.id == id) _ hpd] at hfind
      rw [List.filter_cons_of_neg (p := fun b : Box => b.id == id) hpd]
      exact ih hnodup.2 hfind

theorem addBox_roundtrip (s : CanvasState) (newBox : Box)
    (hok : ∀ b ∈ s.boxes, b.id ≠ newBox.id) :
    (mkAddBoxCommand newBox).undo ((mkAddBoxCommand newBox).execute s) = s := by
  unfold mkAddBoxCommand
  have hboxes : ((s.boxes ++ [newBox]).filter fun b => !(b.id == newBox.id)) =
      s.boxes := by
    rw [List.filter_append]
    have h1 : ([newBox].filter fun b => !(b.id == newBox.id)) = [] := by
      simp
    have h2 : (s.boxes.filter fun b => !(b.id == newBox.id)) = s.boxes := by
      rw [List.filter_eq_self]
      intro b hb
      rw [Bool.not_eq_true', beq_eq_false_iff_ne]
      exact hok b hb
    rw [h1, h2, List.append_nil]
  show ({ s with boxes := ((s.boxes ++ [newBox]).filter
      (fun b => !(b.id == newBox.id))) } : CanvasState) = s
  rw [hboxes]

theorem updateBox_roundtrip (s : CanvasState) (id : String) (text : String)
    (width height : Int) (boxToUpdate : Box)
    (hfind : s.boxes.find? (fun b => b.id == id) = some boxToUpdate)
    (hnodup : (s.boxes.map Box.id).Nodup) :
    (mkUpdateBoxCommand id boxToUpdate text width height).undo
      ((mkUpdateBoxCommand id boxToUpdate text width height).execute s) = s := by
  unfold mkUpdateBoxCommand
  have hb0mem : boxToUpdate ∈ s.boxes := List.mem_of_find?_eq_some hfind
  have hb0id : (boxToUpdate.id == id) = true :=
    List.find?_some (p := fun w : Box => w.id == id) hfind
  have hboxes : ((s.boxes.map fun b =>
      if b.id == id then
        { b with text := text, width := width, height := height }
      else b).map fun b =>
      if b.id == id then
        { b with
          text := boxToUpdate.text, width := boxToUpdate.width,
          height := boxToUpdate.height }
      else b) = s.boxes := by
    rw [List.map_map]
    have hpt : ∀ b ∈ s.boxes,
        ((fun b : Box =>
          if b.id == id then
            { b with
              text := boxToUpdate.text, width := boxToUpdate.width,
              height := boxToUpdate.height }
          else b) ∘ fun b : Box =>
          if b.id == id then
            { b with text := text, width := width, height := height }
          else b) b = (fun a : Box => a) b := by
      intro b hb
      by_cases hid : (b.id == id) = true
      · have hbb0 : boxToUpdate = b :=
          List.inj_on_of_nodup_map hnodup hb0mem hb
            (by rw [eq_of_beq hb0id, eq_of_beq hid])
        subst hbb0
        simp [Function.comp, hid]
      · simp [Function.comp, hid]
    rw [List.map_congr_left hpt, List.map_id']
  show ({ s with boxes := ((s.boxes.map fun b =>
      if b.id == id then
        { b with text := text, width := width, height := height }
      else b).map fun b =>
      if b.id == id then
        { b with
          text := boxToUpdate.text, width := boxToUpdate.width,
          height := boxToUpdate.height }
      else b) } : CanvasState) = s
  rw [hboxes]

theorem deleteBox_undo_perm (s : CanvasState) (id : String) (b0 : Box)
    (hfind : s.boxes.find? (fun b => b.id == id) = some b0)
    (hnodup : (s.boxes.map Box.id).Nodup) :
    stateEquiv
      ((mkDeleteBoxCommand id b0
          (s.connections.filter fun c => c.fromId == id || c.toId == id)).undo
        ((mkDeleteBoxCommand id b0
          (s.connections.filter fun c =>
            c.fromId == id || c.toId == id)).execute s))
      s := by
  unfold mkDeleteBoxCommand stateEquiv
  constructor
  · show ((s.boxes.filter fun b => !(b.id == id)) ++ [b0]).Perm s.boxes
    have h1 : s.boxes.filter (fun b => b.id == id) = [b0] :=
      filter_beq_eq_singleton hnodup hfind
    have h2 := List.filter_append_perm (fun b : Box => !(b.id == id)) s.boxes
    have h3 : (s.boxes.filter fun x => !(!(x.id == id))) =
        s.boxes.filter fun b => b.id == id :=
      List.filter_congr fun x _ => by rw [Bool.not_not]
    rw [h3, h1] at h2
    exact h2
  · show ((s.connections.filter fun c =>
        !(c.fromId == id) && !(c.toId == id)) ++
      (s.connections.filter fun c =>
        c.fromId == id || c.toId == id)).Perm s.connections
    have h2 := List.filter_append_perm
      (fun c : Connection => !(c.fromId == id) && !(c.toId == id)) s.connections
    have h3 : (s.connections.filter fun x =>
        !(!(x.fromId == id) && !(x.toId == id))) =
        s.connections.filter fun c => c.fromId == id || c.toId == id :=
      List.filter_congr fun x _ => by
        rw [Bool.not_and, Bool.not_not, Bool.not_not]
    rw [h3] at h2
    exact h2

theorem deleteBox_redo (s : CanvasState) (id : String) (b0 : Box)
    (hfind : s.boxes.find? (fun b => b.id == id) = some b0) :
    (mkDeleteBoxCommand id b0
        (s.connections.filter fun c => c.fromId == id || c.toId == id)).execute
      ((mkDeleteBoxCommand id b0
          (s.connections.filter fun c => c.fromId == id || c.toId == id)).undo
        ((mkDeleteBoxCommand id b0
          (s.connections.filter fun c =>
            c.fromId == id || c.toId == id)).execute s)) =
    (mkDeleteBoxCommand id b0
        (s.connections.filter fun c =>
          c.fromId == id || c.toId == id)).execute s := by
  have hb0id : (b0.id == id) = true :=
    List.find?_some (p := fun w : Box => w.id == id) hfind
  unfold mkDeleteBoxCommand
  have hkk : ∀ l : List Box,
      ((l.filter fun b => !(b.id == id)).filter fun b => !(b.id == id)) =
        l.filter fun b => !(b.id == id) := by
    intro l
    rw [List.filter_filter]
    exact List.filter_congr fun x _ => Bool.and_self _
  have hck : ∀ l : List Connection,
      ((l.filter fun c => !(c.fromId == id) && !(c.toId == id)).filter
        fun c => !(c.fromId == id) && !(c.toId == id)) =
        l.filter fun c => !(c.fromId == id) && !(c.toId == id) := by
    intro l
    rw [List.filter_filter]
    exact List.filter_congr fun x _ => Bool.and_self _
  have hb0drop : ([b0].filter fun b => !(b.id == id)) = [] := by
    simp [hb0id]
  have hcdrop : ((s.connections.filter fun c =>
      c.fromId == id || c.toId == id).filter
      fun c => !(c.fromId == id) && !(c.toId == id)) = [] := by
    rw [List.filter_eq_nil_iff]
    intro c hc
    have htouch := (List.mem_filter.mp hc).2
    intro hkeep
    rw [Bool.and_eq_true, Bool.not_eq_true', Bool.not_eq_true'] at hkeep
    rcases Bool.or_eq_true_iff.mp htouch with h | h
    · rw [hkeep.1] at h
      exact Bool.false_ne_true h
    · rw [hkeep.2] at h
      exact Bool.false_ne_true h
  show ({ s with
      boxes := List.filter (fun b => !(b.id == id))
        ((s.boxes.filter fun b => !(b.id == id)) ++ [b0]),
      connections := List.filter
        (fun c => !(c.fromId == id) && !(c.toId == id))
        ((s.connections.filter fun c =>
            !(c.fromId == id) && !(c.toId == id)) ++
          (s.connections.filter fun c =>
            c.fromId == id || c.toId == id)) } : CanvasState) =
    { s with
      boxes := s.boxes.filter fun b => !(b.id == id),
      connections := s.connections.filter fun c =>
        !(c.fromId == id) && !(c.toId == id) }
  rw [List.filter_append, List.filter_append, hkk, hck, hb0drop, hcdrop,
    List.append_nil, List.append_nil]

theorem addConnection_roundtrip (s : CanvasState) (fromId toId : String)
    (hok : ∀ c ∈ s.connections, ¬(c.fromId = fromId ∧ c.toId = toId)) :
    (mkAddConnectionCommand fromId toId).undo
      ((mkAddConnectionCommand fromId toId).execute s) = s := by
  unfold mkAddConnectionCommand
  have hconns : ((s.connections ++
      [({ fromId := fromId, toId := toId, ctype := ConnectionType.forward } : Connection)]).filter
      fun c => !(c.fromId == fromId && c.toId == toId)) = s.connections := by
    rw [List.filter_append]
    have h1 : ([({ fromId := fromId, toId := toId, ctype := ConnectionType.forward } : Connection)].filter
        fun c => !(c.fromId == fromId && c.toId == toId)) = [] := by
      simp
    have h2 : (s.connections.filter
        fun c => !(c.fromId == fromId && c.toId == toId)) = s.connections := by
      rw [List.filter_eq_self]
      intro c hc
      rw [Bool.not_eq_true']
      by_cases hcf : (c.fromId == fromId) = true
      · have h5 : c.toId ≠ toId := fun ht => hok c hc ⟨eq_of_beq hcf, ht⟩
        rw [hcf, Bool.true_and]
        exact beq_eq_false_iff_ne.mpr h5
      · rw [eq_false_of_ne_true hcf, Bool.false_and]
    rw [h1, h2, List.append_nil]
  show ({ s with connections := ((s.connections ++
      [({ fromId := fromId, toId := toId, ctype := ConnectionType.forward } : Connection)]).filter
      (fun c => !(c.fromId == fromId && c.toId == toId))) } : CanvasState) = s
  rw [hconns]

/-- C7: for each command routed through the log — add box, delete box,
update text, add connection, move — `execute(cmd); undo()` returns a state
equal by value to the pre-execute state (value equality of the
order-irrelevant collections), and `execute(cmd); undo(); redo()` returns
exactly the post-execute state. -/
theorem C7_undo_redo_round_trip (op : UndoableOp) (h : History CanvasState)
    (hok : okUndoable h.state op) :
    stateEquiv ((applyUndoable h op).undo).state h.state ∧
    (((applyUndoable h op).undo).redo).state = (applyUndoable h op).state := by
  cases op with
  | addBox newBox =>
    have hrt := addBox_roundtrip h.state newBox hok
    have hx := execute_undo_state h (mkAddBoxCommand newBox)
    refine ⟨?_, ?_⟩
    · show stateEquiv ((h.execute (mkAddBoxCommand newBox)).undo).state h.state
      rw [hx.1, hrt]
      exact stateEquiv_refl _
    · show (((h.execute (mkAddBoxCommand newBox)).undo).redo).state =
        (h.execute (mkAddBoxCommand newBox)).state
      rw [hx.2, hrt]
      rfl
  | deleteBox id =>
    obtain ⟨⟨b, hbmem, hbid⟩, hnodup⟩ := hok
    cases hfind : h.state.boxes.find? fun bb => bb.id == id with
    | none =>
      exact absurd (beq_iff_eq.mpr hbid)
        (List.find?_eq_none.mp hfind b hbmem)
    | some b0 =>
      have happ : applyUndoable h (.deleteBox id) =
          h.execute (mkDeleteBoxCommand id b0
            (h.state.connections.filter fun c =>
              c.fromId == id || c.toId == id)) := by
        show canvasDeleteBox h id = _
        unfold canvasDeleteBox
        rw [hfind]
      have hx := execute_undo_state h (mkDeleteBoxCommand id b0
        (h.state.connections.filter fun c => c.fromId == id || c.toId == id))
      have hperm := deleteBox_undo_perm h.state id b0 hfind hnodup
      have hredo := deleteBox_redo h.state id b0 hfind
      rw [happ]
      refine ⟨?_, ?_⟩
      · rw [hx.1]
        exact hperm
      · rw [hx.2, hredo]
        rfl
  | updateBox id text width height =>
    obtain ⟨⟨b, hbmem, hbid⟩, hnodup⟩ := hok
    cases hfind : h.state.boxes.find? fun bb => bb.id == id with
    | none =>
      exact absurd (beq_iff_eq.mpr hbid)
        (List.find?_eq_none.mp hfind b hbmem)
    | some b0 =>
      have happ : applyUndoable h (.updateBox id text width height) =
          h.execute (mkUpdateBoxCommand id b0 text width height) := by
        show canvasUpdateBox h id text width height = _
        unfold canvasUpdateBox
        rw [hfind]
      have hx := execute_undo_state h (mkUpdateBoxCommand id b0 text width height)
      have hrt := updateBox_roundtrip h.state id text width height b0 hfind hnodup
      rw [happ]
      refine ⟨?_, ?_⟩
      · rw [hx.1, hrt]
        exact stateEquiv_refl _
      · rw [hx.2, hrt]
        rfl
  | addConnection fromId toId =>
    obtain ⟨hne, hpairs⟩ := hok
    have hg1 : ¬((fromId == toId) = true) := fun hc => hne (eq_of_beq hc)
    have hg2 : ¬((h.state.connections.any fun c =>
        (c.fromId == fromId && c.toId == toId) ||
        (c.fromId == toId && c.toId == fromId)) = true) := by
      intro hc
      rcases List.any_eq_true.mp hc with ⟨c, hcmem, hcond⟩
      rcases Bool.or_eq_true_iff.mp hcond with hcond | hcond <;>
        rw [Bool.and_eq_true] at hcond
      · exact (hpairs c hcmem).1 ⟨eq_of_beq hcond.1, eq_of_beq hcond.2⟩
      · exact (hpairs c hcmem).2 ⟨eq_of_beq hcond.1, eq_of_beq hcond.2⟩
    have happ : applyUndoable h (.addConnection fromId toId) =
        h.execute (mkAddConnectionCommand fromId toId) := by
      show canvasAddConnection h fromId toId = _
      unfold canvasAddConnection
      rw [if_neg hg1, if_neg hg2]
    have hok2 : ∀ c ∈ h.state.connections,
        ¬(c.fromId = fromId ∧ c.toId = toId) := fun c hc => (hpairs c hc).1
    have hrt := addConnection_roundtrip h.state fromId toId hok2
    have hx := execute_undo_state h (mkAddConnectionCommand fromId toId)
    rw [happ]
    refine ⟨?_, ?_⟩
    · rw [hx.1, hrt]
      exact stateEquiv_refl _
    · rw [hx.2, hrt]
      rfl
  | move newState =>
    have hx := execute_undo_state h (mkMoveCommand h.state newState)
    refine ⟨?_, ?_⟩
    · show stateEquiv
        ((h.execute (mkMoveCommand h.state newState)).undo).state h.state
      rw [hx.1]
      exact stateEquiv_refl _
    · show (((h.execute (mkMoveCommand h.state newState)).undo).redo).state =
        (h.execute (mkMoveCommand h.state newState)).state
      rw [hx.2]
      rfl

/-- Witness for C7: deleting box `a` (which also removes its connection)
from the two-box example and undoing restores the state up to collection
order; redoing re-applies the deletion exactly. -/
theorem C7_undo_redo_round_trip_witness :
    okUndoable exampleHistory.state (.deleteBox "a") ∧
    (stateEquiv
        ((applyUndoable exampleHistory (.deleteBox "a")).undo).state
        exampleHistory.state ∧
      (((applyUndoable exampleHistory (.deleteBox "a")).undo).redo).state =
        (applyUndoable exampleHistory (.deleteBox "a")).state) :=
  ⟨by constructor
      · exact ⟨boxA, by decide, by decide⟩
      · decide,
    C7_undo_redo_round_trip (.deleteBox "a") exampleHistory
      (by constructor
          · exact ⟨boxA, by decide, by decide⟩
          · decide)⟩

/-! ## Invariant preservation per operation -/

theorem map_preserve_good {l : List Box} {g : Box → Box}
    (hrect : ∀ b, (g b).rect = b.rect) (hid : ∀ b, (g b).id = b.id)
    (hno : noOverlap l) (hnodup : (l.map Box.id).Nodup) :
    noOverlap (l.map g) ∧ ((l.map g).map Box.id).Nodup := by
  constructor
  · unfold noOverlap at hno ⊢
    rw [List.pairwise_map]
    refine hno.imp ?_
    intro a b hab
    rw [hrect a, hrect b]
    exact hab
  · rw [List.map_map]
    have hmap : l.map (Box.id ∘ g) = l.map Box.id :=
      List.map_congr_left fun b _ => hid b
    rw [hmap]
    exact hnodup

theorem applyOp_good (s : CanvasState) (op : CanvasOp)
    (hs : goodState s) (hf : opFresh s op = true) :
    goodState (applyOp s op) := by
  obtain ⟨hno, hnodup⟩ := hs
  cases op with
  | addBox preview newId =>
    show goodState { s with boxes := handleMouseUpAddBox preview s.boxes newId }
    unfold handleMouseUpAddBox
    split
    · rename_i hcond
      obtain ⟨hsize, hnocol⟩ := hcond
      have hfresh : ∀ b ∈ s.boxes, b.id ≠ newId := by
        unfold opFresh at hf
        rw [List.all_eq_true] at hf
        intro b hb
        have := hf b hb
        rw [Bool.not_eq_true', beq_eq_false_iff_ne] at this
        exact this
      constructor
      · unfold noOverlap
        rw [List.pairwise_append]
        refine ⟨hno, List.pairwise_singleton _ _, ?_⟩
        intro a ha b hb
        rcases List.mem_singleton.mp hb with rfl
        have hcol := eq_false_of_ne_true hnocol
        unfold isPreviewCollidingWithAny at hcol
        rw [List.any_eq_false] at hcol
        have h2 : doBoxesIntersect preview a.rect = false := by
          simpa using hcol a ha
        have hrect : (mkNewBox preview newId).rect = preview := rfl
        rw [hrect, doBoxesIntersect_symm]
        exact h2
      · show ((s.boxes ++ [mkNewBox preview newId]).map Box.id).Nodup
        rw [List.map_append]
        rw [List.nodup_append]
        refine ⟨hnodup, List.nodup_singleton _, ?_⟩
        intro x hx
        rcases List.mem_map.mp hx with ⟨b, hb, rfl⟩
        intro hmem
        rcases List.mem_singleton.mp hmem with hbid
        exact hfresh b hb hbid
    · exact ⟨hno, hnodup⟩
  | deleteBox id =>
    show goodState (match s.boxes.find? fun b => b.id == id with
      | Option.none => s
      | some boxToDelete =>
        (mkDeleteBoxCommand id boxToDelete
          (s.connections.filter fun c =>
            c.fromId == id || c.toId == id)).execute s)
    cases hfind : s.boxes.find? fun b => b.id == id with
    | none => exact ⟨hno, hnodup⟩
    | some b0 =>
      constructor
      · exact List.Pairwise.sublist (List.filter_sublist _) hno
      · exact List.Nodup.sublist ((List.filter_sublist _).map Box.id) hnodup
  | moveBox dragBoxId newGridX newGridY =>
    refine ⟨resolveMove_noOverlap dragBoxId newGridX newGridY hnodup hno, ?_⟩
    show ((resolveMove s.boxes dragBoxId newGridX newGridY).map Box.id).Nodup
    rw [resolveMove_map_id]
    exact hnodup
  | addConnection fromId toId =>
    show goodState (if fromId == toId then s
      else if s.connections.any fun c =>
          (c.fromId == fromId && c.toId == toId) ||
          (c.fromId == toId && c.toId == fromId) then s
      else (mkAddConnectionCommand fromId toId).execute s)
    split
    · exact ⟨hno, hnodup⟩
    · split
      · exact ⟨hno, hnodup⟩
      · exact ⟨hno, hnodup⟩
  | toggleSelection id =>
    exact map_preserve_good
      (fun b => by
        show (if b.id == id then
          ({ b with selected := !b.selected } : Box) else b).rect = b.rect
        split <;> rfl)
      (fun b => by
        show (if b.id == id then
          ({ b with selected := !b.selected } : Box) else b).id = b.id
        split <;> rfl)
      hno hnodup
  | selectBoxes ids =>
    exact map_preserve_good (fun b => rfl) (fun b => rfl) hno hnodup
  | clearSelection =>
    exact map_preserve_good (fun b => rfl) (fun b => rfl) hno hnodup

/-- C3 (counterexample): the claim quantifies over update-text operations
too, but `updateBox` rewrites width and height with no collision check:
widening box `a` of the flush pair `a{0,0,2,1}`, `b{2,0,2,1}` to width 3
makes the externally observed state contain two overlapping boxes. -/
theorem C3_counterexample :
    noOverlap exampleHistory.state.boxes ∧
    ¬noOverlap ((canvasUpdateBox exampleHistory "a" "" 3 1).state).boxes :=
  ⟨by decide, by decide⟩

/-- C3 (amended): for every sequence of add-box (via the guarded commit
path, with fresh uuids), delete-box, move/drag, connection and selection
operations starting from a well-formed state — no two distinct boxes
overlapping, pairwise distinct box ids — every externally observed state
keeps the no-overlap invariant.  The update-text operation is excluded:
it rewrites width/height without any collision check (see the
counterexample). -/
theorem C3_no_overlap_invariant (s : CanvasState) (ops : List CanvasOp)
    (hs : goodState s) (hfresh : traceFresh s ops = true) :
    noOverlap (ops.foldl applyOp s).boxes := by
  suffices hgood : goodState (ops.foldl applyOp s) by exact hgood.1
  induction ops generalizing s with
  | nil => exact hs
  | cons op ops ih =>
    rw [List.foldl_cons]
    unfold traceFresh at hfresh
    rw [Bool.and_eq_true] at hfresh
    exact ih (applyOp s op) (applyOp_good s op hs hfresh.1) hfresh.2

/-- Witness for C3 (amended): a seven-operation trace from the empty
state — two adds, a chain-pushing move, a connection, a selection toggle,
a delete and a clear — ends with no overlap. -/
theorem C3_no_overlap_invariant_witness :
    goodState { boxes := [], connections := [] } ∧
    traceFresh { boxes := [], connections := [] }
      [.addBox boxA.rect "a", .addBox boxB.rect "b", .moveBox "a" 1 0,
        .addConnection "a" "b", .toggleSelection "b", .deleteBox "a",
        .clearSelection] = true ∧
    noOverlap (([CanvasOp.addBox boxA.rect "a", .addBox boxB.rect "b",
        .moveBox "a" 1 0, .addConnection "a" "b", .toggleSelection "b",
        .deleteBox "a", .clearSelection].foldl applyOp
      { boxes := [], connections := [] }).boxes) :=
  ⟨⟨by decide, by decide⟩, by decide,
    C3_no_overlap_invariant _ _ ⟨by decide, by decide⟩ (by decide)⟩

end Kairo
